import Mathlib

/-!
# Deployment script `scripts/deploy.js`

A shallow embedding of the deployment script.  The script is a linear
asynchronous sequence of calls into libraries it does not implement
(`hre.ethers`, the contract factory, the contract handle, `hre.run`).
Each of those calls is embedded as an outcome supplied by the environment:
either a returned value or a thrown error.  The script itself is embedded
as a computation that records, in order, every call it makes, how the call
ended, and every console line it writes.

Module loading (lines 3 and 4 of the script) is taken to have succeeded;
`console.log`, `console.error`, `process.exit` and the pure formatter
`formatEther` (applied to the balance `getBalance` resolved to) are taken
not to throw.
-/

namespace Deploy

/-! ## Values supplied by the environment -/

/-- A thrown JavaScript value. -/
structure JsError where
  name : String
  message : String
  deriving DecidableEq, Repr

/-- The pending deployment transaction, `contract.deployTransaction`. -/
structure DeployTransaction where
  /-- Outcome of `wait(confirmations)`; the receipt is not used by the script. -/
  wait : Nat → Except JsError Unit

/-- The contract instance returned by `NFTMarketplace.deploy()`. -/
structure Contract where
  address : String
  /-- Outcome of `contract.deployed()`; the resolved value is not used. -/
  deployed : Except JsError Unit
  deployTransaction : DeployTransaction

/-- The contract factory resolved by `getContractFactory`. -/
structure Factory where
  /-- Outcome of `deploy(...args)`. -/
  deploy : List String → Except JsError Contract

/-- A signer returned by `getSigners`. -/
structure Signer where
  address : String
  /-- Outcome of `getBalance()`, in wei. -/
  getBalance : Except JsError Nat

/-- The object literal passed to the `verify:verify` task. -/
structure VerifyArgs where
  address : String
  constructorArguments : List String
  deriving DecidableEq, Repr

/-- The part of `hre.network` the script reads. -/
structure Network where
  name : String

/-- The part of `hre.ethers` the script calls. -/
structure Ethers where
  getSigners : Except JsError (List Signer)
  /-- The pure formatting function `utils.formatEther`, total on balances. -/
  formatEther : Nat → String
  getContractFactory : String → Except JsError Factory

/-- The Hardhat runtime environment, `hre`. -/
structure Hre where
  network : Network
  ethers : Ethers
  /-- Outcome of `hre.run(task, args)`. -/
  run : String → VerifyArgs → Except JsError Unit

/-! ## Observable trace -/

/-- An argument printed by `console.log` or `console.error`. -/
inductive JsValue where
  | str (s : String)
  | err (e : JsError)
  deriving DecidableEq, Repr

/-- The steps of `main` that can throw. -/
inductive Step where
  /-- Line 7, `hre.ethers.getSigners()`. -/
  | getSigners
  /-- Line 8, the property read `deployer.address`. -/
  | readAddress
  /-- Line 9, `deployer.getBalance()`. -/
  | getBalance (deployer : Signer)
  /-- Line 12, `hre.ethers.getContractFactory(name)`. -/
  | getContractFactory (name : String)
  /-- Line 16, `factory.deploy(...args)`. -/
  | deploy (factory : Factory) (args : List String)
  /-- Line 18, `contract.deployed()`. -/
  | deployed (contract : Contract)
  /-- Line 25, `contract.deployTransaction.wait(confirmations)`. -/
  | wait (contract : Contract) (confirmations : Nat)
  /-- Line 28, `hre.run(task, args)`. -/
  | run (task : String) (args : VerifyArgs)

/-- One entry of the trace of a run. -/
inductive Event where
  /-- The step was started. -/
  | invoke (s : Step)
  /-- The step returned without throwing. -/
  | returned (s : Step)
  /-- The step threw `e`. -/
  | threw (s : Step) (e : JsError)
  /-- A `console.log` line. -/
  | log (args : List JsValue)
  /-- A `console.error` line. -/
  | error (args : List JsValue)

/-! ## The script monad -/

/-- A computation that extends the trace and either returns or throws. -/
def Script (α : Type) : Type := List Event → Except JsError α × List Event

/-- Return a value, leaving the trace unchanged. -/
def Script.pure {α : Type} (a : α) : Script α := fun t => (.ok a, t)

/-- Sequencing: a throw in the first computation skips the second. -/
def Script.bind {α β : Type} (m : Script α) (f : α → Script β) : Script β :=
  fun t =>
    match m t with
    | (.ok a, t1) => f a t1
    | (.error e, t1) => (.error e, t1)

instance : Monad Script where
  pure := Script.pure
  bind := Script.bind

/-- Append one event to the trace. -/
def emit (ev : Event) : Script Unit := fun t => (.ok (), t ++ [ev])

/-- Perform a step whose outcome the environment supplies (an awaited call
or a property read): the step is recorded, then it returns or throws. -/
def call {α : Type} (s : Step) (outcome : Except JsError α) : Script α :=
  fun t =>
    match outcome with
    | .ok a => (.ok a, t ++ [Event.invoke s, Event.returned s])
    | .error e => (.error e, t ++ [Event.invoke s, Event.threw s e])

/-- The statement `try { body } catch (error) { handler error }`. -/
def tryCatch {α : Type} (body : Script α) (handler : JsError → Script α) : Script α :=
  fun t =>
    match body t with
    | (.ok a, t1) => (.ok a, t1)
    | (.error e, t1) => handler e t1

/-- The statement `console.log(...args)`. -/
def consoleLog (args : List JsValue) : Script Unit := emit (Event.log args)

/-! ## The script -/

/-- The error raised by reading a property of `undefined`. -/
def undefinedRead : JsError :=
  { name := "TypeError", message := "Cannot read properties of undefined (reading address)" }

/-- The member access `deployer.address` of line 8, where `deployer` is the
first element of the destructured signer array (`undefined` when the array
is empty).  It yields the object whose property is read. -/
def deref (deployer : Option Signer) : Except JsError Signer :=
  match deployer with
  | some d => .ok d
  | none => .error undefinedRead

/-- The test of line 23. -/
def isPublicNetwork (name : String) : Bool :=
  name != "hardhat" && name != "localhost"

/-- The function `main` of lines 6 to 37. -/
def main (hre : Hre) : Script Unit := do
  let signers ← call Step.getSigners hre.ethers.getSigners
  let deployer ← call Step.readAddress (deref signers.head?)
  consoleLog [.str "Deploying contracts with account:", .str deployer.address]
  let balance ← call (Step.getBalance deployer) deployer.getBalance
  consoleLog [.str "Account balance:", .str (hre.ethers.formatEther balance), .str "ETH"]
  let NFTMarketplace ← call (Step.getContractFactory "NFTMarketplace")
    (hre.ethers.getContractFactory "NFTMarketplace")
  let contract ← call (Step.deploy NFTMarketplace []) (NFTMarketplace.deploy [])
  call (Step.deployed contract) contract.deployed
  consoleLog [.str "NFTMarketplace deployed to:", .str contract.address]
  if isPublicNetwork hre.network.name then
    consoleLog [.str "Waiting for Etherscan verification..."]
    call (Step.wait contract 5) (contract.deployTransaction.wait 5)
    tryCatch
      (do
        call (Step.run "verify:verify"
            { address := contract.address, constructorArguments := [] })
          (hre.run "verify:verify"
            { address := contract.address, constructorArguments := [] })
        consoleLog [.str "Contract verified on Etherscan!"])
      (fun error => consoleLog [.str "Verification error:", .err error])

/-- What a run of the script leaves behind. -/
structure Run where
  /-- Everything the script did, in order. -/
  trace : List Event
  /-- How the promise returned by `main()` settled. -/
  result : Except JsError Unit
  /-- The argument of `process.exit`. -/
  exitCode : Nat

/-- Lines 39 to 44: `main().then(() => process.exit(0)).catch(...)`. -/
def script (hre : Hre) : Run :=
  match main hre [] with
  | (.ok u, t) => { trace := t, result := .ok u, exitCode := 0 }
  | (.error e, t) =>
    { trace := t ++ [Event.error [.err e]], result := .error e, exitCode := 1 }

/-! ## Reading a trace -/

/-- Which statement of `main` a step is, forgetting its arguments. -/
inductive Kind where
  | getSigners
  | readAddress
  | getBalance
  | getContractFactory
  | deploy
  | deployed
  | wait
  | run
  deriving DecidableEq, Repr

/-- The statement a step belongs to. -/
def Step.kind : Step → Kind
  | .getSigners => .getSigners
  | .readAddress => .readAddress
  | .getBalance _ => .getBalance
  | .getContractFactory _ => .getContractFactory
  | .deploy _ _ => .deploy
  | .deployed _ => .deployed
  | .wait _ _ => .wait
  | .run _ _ => .run

/-- The event starts a step of kind `k`. -/
def Event.invokes (k : Kind) : Event → Bool
  | .invoke s => decide (s.kind = k)
  | _ => false

/-- The event is the normal return of a step of kind `k`. -/
def Event.returns (k : Kind) : Event → Bool
  | .returned s => decide (s.kind = k)
  | _ => false

/-- The event starts some step. -/
def Event.isInvoke : Event → Bool
  | .invoke _ => true
  | _ => false

/-- The event is a throw that the `try` block of lines 27 to 35 does not
enclose: a throw of any step other than the verification call. -/
def Event.isFatalThrow : Event → Bool
  | .threw s _ => decide (s.kind ≠ Kind.run)
  | _ => false

/-- The event is a `console.log` line opening with the text `label`. -/
def Event.logsLabel (label : String) : Event → Bool
  | .log (.str s :: _) => decide (s = label)
  | _ => false

/-- Every event satisfying `q` has an event satisfying `p` strictly before
it in the trace. -/
def Before (p q : Event → Bool) (t : List Event) : Prop :=
  ∀ pre ev post, t = pre ++ ev :: post → q ev = true → ∃ ev1 ∈ pre, p ev1 = true

/-- Executable check of `Before`; `seen` tells whether a `p` event was
already met. -/
def beforeB (p q : Event → Bool) : Bool → List Event → Bool
  | _, [] => true
  | seen, ev :: rest => (!(q ev) || seen) && beforeB p q (seen || p ev) rest

/-- No step is started after a throw that the `try` block does not enclose. -/
def FailFast (t : List Event) : Prop :=
  ∀ pre ev post, t = pre ++ ev :: post → ev.isFatalThrow = true →
    ∀ ev1 ∈ post, ev1.isInvoke = false

/-- Executable check of `FailFast`. -/
def failFastB : List Event → Bool
  | [] => true
  | ev :: rest => (!(ev.isFatalThrow) || rest.all (fun ev1 => !(ev1.isInvoke))) && failFastB rest

/-! ## The traces of the paths through `main` -/

/-- Lines 7 and 8, with `d` the first signer. -/
def tAddress (d : Signer) : List Event :=
  [.invoke .getSigners, .returned .getSigners, .invoke .readAddress, .returned .readAddress,
   .log [.str "Deploying contracts with account:", .str d.address]]

/-- Through line 9, with balance `b` shown as `hre.ethers.formatEther b`. -/
def tBalance (hre : Hre) (d : Signer) (b : Nat) : List Event :=
  tAddress d ++
  [.invoke (.getBalance d), .returned (.getBalance d),
   .log [.str "Account balance:", .str (hre.ethers.formatEther b), .str "ETH"]]

/-- Through line 12. -/
def tFactory (hre : Hre) (d : Signer) (b : Nat) : List Event :=
  tBalance hre d b ++
  [.invoke (.getContractFactory "NFTMarketplace"),
   .returned (.getContractFactory "NFTMarketplace")]

/-- Through line 16, with `f` the resolved factory. -/
def tDeploy (hre : Hre) (d : Signer) (b : Nat) (f : Factory) : List Event :=
  tFactory hre d b ++ [.invoke (.deploy f []), .returned (.deploy f [])]

/-- Through line 20, with `c` the deployed contract instance. -/
def tDeployed (hre : Hre) (d : Signer) (b : Nat) (f : Factory) (c : Contract) : List Event :=
  tDeploy hre d b f ++
  [.invoke (.deployed c), .returned (.deployed c),
   .log [.str "NFTMarketplace deployed to:", .str c.address]]

/-- Through line 25. -/
def tWait (hre : Hre) (d : Signer) (b : Nat) (f : Factory) (c : Contract) : List Event :=
  tDeployed hre d b f c ++
  [.log [.str "Waiting for Etherscan verification..."],
   .invoke (.wait c 5), .returned (.wait c 5)]

/-- The object literal of lines 28 to 31. -/
def verifyArgs (c : Contract) : VerifyArgs :=
  { address := c.address, constructorArguments := [] }

/-- The paths through the script: which outcomes of the environment select
the path, and the run it produces. -/
inductive Path (hre : Hre) : Prop where
  | signersThrow (e : JsError)
      (hs : hre.ethers.getSigners = .error e)
      (hrun : script hre =
        { trace := [.invoke .getSigners, .threw .getSigners e, .error [.err e]],
          result := .error e, exitCode := 1 })
  | noSigner (signers : List Signer)
      (hs : hre.ethers.getSigners = .ok signers) (hd : signers.head? = none)
      (hrun : script hre =
        { trace := [.invoke .getSigners, .returned .getSigners, .invoke .readAddress,
                    .threw .readAddress undefinedRead, .error [.err undefinedRead]],
          result := .error undefinedRead, exitCode := 1 })
  | balanceThrow (signers : List Signer) (d : Signer) (e : JsError)
      (hs : hre.ethers.getSigners = .ok signers) (hd : signers.head? = some d)
      (hb : d.getBalance = .error e)
      (hrun : script hre =
        { trace := tAddress d ++
            [.invoke (.getBalance d), .threw (.getBalance d) e, .error [.err e]],
          result := .error e, exitCode := 1 })
  | factoryThrow (signers : List Signer) (d : Signer) (b : Nat) (e : JsError)
      (hs : hre.ethers.getSigners = .ok signers) (hd : signers.head? = some d)
      (hb : d.getBalance = .ok b)
      (hf : hre.ethers.getContractFactory "NFTMarketplace" = .error e)
      (hrun : script hre =
        { trace := tBalance hre d b ++
            [.invoke (.getContractFactory "NFTMarketplace"),
             .threw (.getContractFactory "NFTMarketplace") e, .error [.err e]],
          result := .error e, exitCode := 1 })
  | deployThrow (signers : List Signer) (d : Signer) (b : Nat) (f : Factory) (e : JsError)
      (hs : hre.ethers.getSigners = .ok signers) (hd : signers.head? = some d)
      (hb : d.getBalance = .ok b)
      (hf : hre.ethers.getContractFactory "NFTMarketplace" = .ok f)
      (hdep : f.deploy [] = .error e)
      (hrun : script hre =
        { trace := tFactory hre d b ++
            [.invoke (.deploy f []), .threw (.deploy f []) e, .error [.err e]],
          result := .error e, exitCode := 1 })
  | deployedThrow (signers : List Signer) (d : Signer) (b : Nat) (f : Factory)
      (c : Contract) (e : JsError)
      (hs : hre.ethers.getSigners = .ok signers) (hd : signers.head? = some d)
      (hb : d.getBalance = .ok b)
      (hf : hre.ethers.getContractFactory "NFTMarketplace" = .ok f)
      (hdep : f.deploy [] = .ok c) (hm : c.deployed = .error e)
      (hrun : script hre =
        { trace := tDeploy hre d b f ++
            [.invoke (.deployed c), .threw (.deployed c) e, .error [.err e]],
          result := .error e, exitCode := 1 })
  | localDone (signers : List Signer) (d : Signer) (b : Nat) (f : Factory) (c : Contract)
      (hs : hre.ethers.getSigners = .ok signers) (hd : signers.head? = some d)
      (hb : d.getBalance = .ok b)
      (hf : hre.ethers.getContractFactory "NFTMarketplace" = .ok f)
      (hdep : f.deploy [] = .ok c) (hm : c.deployed = .ok ())
      (hp : isPublicNetwork hre.network.name = false)
      (hrun : script hre =
        { trace := tDeployed hre d b f c, result := .ok (), exitCode := 0 })
  | waitThrow (signers : List Signer) (d : Signer) (b : Nat) (f : Factory)
      (c : Contract) (e : JsError)
      (hs : hre.ethers.getSigners = .ok signers) (hd : signers.head? = some d)
      (hb : d.getBalance = .ok b)
      (hf : hre.ethers.getContractFactory "NFTMarketplace" = .ok f)
      (hdep : f.deploy [] = .ok c) (hm : c.deployed = .ok ())
      (hp : isPublicNetwork hre.network.name = true)
      (hw : c.deployTransaction.wait 5 = .error e)
      (hrun : script hre =
        { trace := tDeployed hre d b f c ++
            [.log [.str "Waiting for Etherscan verification..."],
             .invoke (.wait c 5), .threw (.wait c 5) e, .error [.err e]],
          result := .error e, exitCode := 1 })
  | verified (signers : List Signer) (d : Signer) (b : Nat) (f : Factory) (c : Contract)
      (hs : hre.ethers.getSigners = .ok signers) (hd : signers.head? = some d)
      (hb : d.getBalance = .ok b)
      (hf : hre.ethers.getContractFactory "NFTMarketplace" = .ok f)
      (hdep : f.deploy [] = .ok c) (hm : c.deployed = .ok ())
      (hp : isPublicNetwork hre.network.name = true)
      (hw : c.deployTransaction.wait 5 = .ok ())
      (hv : hre.run "verify:verify" (verifyArgs c) = .ok ())
      (hrun : script hre =
        { trace := tWait hre d b f c ++
            [.invoke (.run "verify:verify" (verifyArgs c)),
             .returned (.run "verify:verify" (verifyArgs c)),
             .log [.str "Contract verified on Etherscan!"]],
          result := .ok (), exitCode := 0 })
  | verifyThrow (signers : List Signer) (d : Signer) (b : Nat) (f : Factory)
      (c : Contract) (e : JsError)
      (hs : hre.ethers.getSigners = .ok signers) (hd : signers.head? = some d)
      (hb : d.getBalance = .ok b)
      (hf : hre.ethers.getContractFactory "NFTMarketplace" = .ok f)
      (hdep : f.deploy [] = .ok c) (hm : c.deployed = .ok ())
      (hp : isPublicNetwork hre.network.name = true)
      (hw : c.deployTransaction.wait 5 = .ok ())
      (hv : hre.run "verify:verify" (verifyArgs c) = .error e)
      (hrun : script hre =
        { trace := tWait hre d b f c ++
            [.invoke (.run "verify:verify" (verifyArgs c)),
             .threw (.run "verify:verify" (verifyArgs c)) e,
             .log [.str "Verification error:", .err e]],
          result := .ok (), exitCode := 0 })

/-! ## Sample environments -/

/-- A thrown error used in the sample environments. -/
def boom : JsError := { name := "Error", message := "boom" }

/-- A signer holding 5 wei. -/
def signer0 : Signer := { address := "0xD0", getBalance := .ok 5 }

/-- A signer whose balance query throws. -/
def signerBad : Signer := { address := "0xD1", getBalance := .error boom }

/-- A contract that is mined and confirmed. -/
def contract0 : Contract :=
  { address := "0xC0", deployed := .ok (), deployTransaction := { wait := fun _ => .ok () } }

/-- A contract that is mined but whose confirmation wait throws. -/
def contractUnconfirmed : Contract :=
  { address := "0xC1", deployed := .ok (),
    deployTransaction := { wait := fun _ => .error boom } }

/-- A factory deploying `contract0`. -/
def factory0 : Factory := { deploy := fun _ => .ok contract0 }

/-- A factory deploying `contractUnconfirmed`. -/
def factoryUnconfirmed : Factory := { deploy := fun _ => .ok contractUnconfirmed }

/-- The library part of an environment in which every call succeeds. -/
def ethers0 : Ethers :=
  { getSigners := .ok [signer0], formatEther := fun _ => "0.000000000000000005",
    getContractFactory := fun _ => .ok factory0 }

/-- The in-process Hardhat network; everything succeeds. -/
def hreLocal : Hre :=
  { network := { name := "hardhat" }, ethers := ethers0, run := fun _ _ => .ok () }

/-- A public network; everything succeeds. -/
def hreSepolia : Hre :=
  { network := { name := "sepolia" }, ethers := ethers0, run := fun _ _ => .ok () }

/-- A network whose name differs from `hardhat` only in case; verification throws. -/
def hreVerifyThrows : Hre :=
  { network := { name := "Hardhat" }, ethers := ethers0, run := fun _ _ => .error boom }

/-- No account is configured: `getSigners` resolves to the empty array. -/
def hreNoSigner : Hre :=
  { network := { name := "sepolia" }, ethers := { ethers0 with getSigners := .ok [] },
    run := fun _ _ => .ok () }

/-- The balance query throws. -/
def hreBalanceThrows : Hre :=
  { network := { name := "sepolia" }, ethers := { ethers0 with getSigners := .ok [signerBad] },
    run := fun _ _ => .ok () }

/-- The factory cannot be resolved. -/
def hreFactoryThrows : Hre :=
  { network := { name := "localhost" },
    ethers := { ethers0 with getContractFactory := fun _ => .error boom },
    run := fun _ _ => .ok () }

/-- The confirmation wait throws. -/
def hreWaitThrows : Hre :=
  { network := { name := "sepolia" },
    ethers := { ethers0 with getContractFactory := fun _ => .ok factoryUnconfirmed },
    run := fun _ _ => .ok () }

/-! ## Unfolding the script monad -/

/-- Sequencing in `Script` is `Script.bind`. -/
theorem bind_apply {α β : Type} (m : Script α) (f : α → Script β) (t : List Event) :
    (m >>= f) t = Script.bind m f t := rfl

/-- Returning in `Script` leaves the trace unchanged. -/
theorem pure_apply {α : Type} (a : α) (t : List Event) :
    (Pure.pure a : Script α) t = (.ok a, t) := rfl

/-- Every run of the script follows one of the paths of `Path`. -/
theorem script_path (hre : Hre) : Path hre := by
  rcases hs : hre.ethers.getSigners with e | signers
  · exact .signersThrow e hs (by
      simp [script, main, bind_apply, Script.bind, call, hs])
  rcases hd : signers.head? with _ | d
  · exact .noSigner signers hs hd (by
      simp [script, main, bind_apply, Script.bind, call, deref, hs, hd])
  rcases hb : d.getBalance with e | b
  · exact .balanceThrow signers d e hs hd hb (by
      simp [script, main, bind_apply, Script.bind, call, deref, consoleLog, emit, tAddress,
        hs, hd, hb])
  rcases hf : hre.ethers.getContractFactory "NFTMarketplace" with e | f
  · exact .factoryThrow signers d b e hs hd hb hf (by
      simp [script, main, bind_apply, Script.bind, call, deref, consoleLog, emit, tAddress,
        tBalance, hs, hd, hb, hf])
  rcases hdep : f.deploy [] with e | c
  · exact .deployThrow signers d b f e hs hd hb hf hdep (by
      simp [script, main, bind_apply, Script.bind, call, deref, consoleLog, emit, tAddress,
        tBalance, tFactory, hs, hd, hb, hf, hdep])
  rcases hm : c.deployed with e | u
  · exact .deployedThrow signers d b f c e hs hd hb hf hdep hm (by
      simp [script, main, bind_apply, Script.bind, call, deref, consoleLog, emit, tAddress,
        tBalance, tFactory, tDeploy, hs, hd, hb, hf, hdep, hm])
  rcases hp : isPublicNetwork hre.network.name with _ | _
  · exact .localDone signers d b f c hs hd hb hf hdep hm hp (by
      simp [script, main, bind_apply, pure_apply, Script.bind, call, deref, consoleLog, emit,
        tAddress, tBalance, tFactory, tDeploy, tDeployed, hs, hd, hb, hf, hdep, hm, hp])
  rcases hw : c.deployTransaction.wait 5 with e | u
  · exact .waitThrow signers d b f c e hs hd hb hf hdep hm hp hw (by
      simp [script, main, bind_apply, Script.bind, call, deref, consoleLog, emit,
        tAddress, tBalance, tFactory, tDeploy, tDeployed, hs, hd, hb, hf, hdep, hm, hp, hw])
  rcases hv : hre.run "verify:verify" (verifyArgs c) with e | u
  · exact .verifyThrow signers d b f c e hs hd hb hf hdep hm hp hw hv (by
      rw [verifyArgs] at hv
      simp [script, main, bind_apply, Script.bind, call, deref, consoleLog, emit, tryCatch,
        tAddress, tBalance, tFactory, tDeploy, tDeployed, tWait, verifyArgs,
        hs, hd, hb, hf, hdep, hm, hp, hw, hv])
  · exact .verified signers d b f c hs hd hb hf hdep hm hp hw hv (by
      rw [verifyArgs] at hv
      simp [script, main, bind_apply, Script.bind, call, deref, consoleLog, emit, tryCatch,
        tAddress, tBalance, tFactory, tDeploy, tDeployed, tWait, verifyArgs,
        hs, hd, hb, hf, hdep, hm, hp, hw, hv])

/-- The test of line 23 is exact string inequality with both local names. -/
theorem isPublicNetwork_iff (name : String) :
    isPublicNetwork name = true ↔ name ≠ "hardhat" ∧ name ≠ "localhost" := by
  simp [isPublicNetwork]

/-- Both local names fail the test of line 23. -/
theorem isPublicNetwork_local (name : String)
    (h : name = "hardhat" ∨ name = "localhost") : isPublicNetwork name = false := by
  rcases h with h | h <;> subst h <;> decide

/-- Soundness of the executable ordering check, for any starting flag. -/
theorem beforeB_sound (p q : Event → Bool) :
    ∀ (t : List Event) (seen : Bool), beforeB p q seen t = true →
      ∀ pre ev post, t = pre ++ ev :: post → q ev = true →
        seen = true ∨ ∃ ev1 ∈ pre, p ev1 = true := by
  intro t
  induction t with
  | nil =>
    intro seen _ pre ev post heq _
    cases pre <;> simp at heq
  | cons a rest ih =>
    intro seen h pre ev post heq hq
    simp only [beforeB, Bool.and_eq_true, Bool.or_eq_true, Bool.not_eq_true_eq_eq_false] at h
    cases pre with
    | nil =>
      simp only [List.nil_append, List.cons.injEq] at heq
      obtain ⟨rfl, -⟩ := heq
      rcases h.1 with h1 | h1
      · rw [hq] at h1; cases h1
      · exact Or.inl h1
    | cons b pre1 =>
      simp only [List.cons_append, List.cons.injEq] at heq
      obtain ⟨rfl, rfl⟩ := heq
      rcases ih _ h.2 pre1 ev post rfl hq with h2 | ⟨ev1, hmem, hp⟩
      · simp only [Bool.or_eq_true] at h2
        rcases h2 with h2 | h2
        · exact Or.inl h2
        · exact Or.inr ⟨a, List.mem_cons_self _ _, h2⟩
      · exact Or.inr ⟨ev1, List.mem_cons_of_mem _ hmem, hp⟩

/-- The executable ordering check establishes `Before`. -/
theorem before_of_beforeB (p q : Event → Bool) (t : List Event)
    (h : beforeB p q false t = true) : Before p q t := by
  intro pre ev post heq hq
  rcases beforeB_sound p q t false h pre ev post heq hq with h1 | h1
  · cases h1
  · exact h1

/-- The executable fail-fast check establishes `FailFast`. -/
theorem failFast_of_failFastB : ∀ (t : List Event), failFastB t = true → FailFast t := by
  intro t
  induction t with
  | nil =>
    intro _ pre ev post heq _
    cases pre <;> simp at heq
  | cons a rest ih =>
    intro h pre ev post heq hq
    simp only [failFastB, Bool.and_eq_true, Bool.or_eq_true, Bool.not_eq_true_eq_eq_false,
      List.all_eq_true] at h
    cases pre with
    | nil =>
      simp only [List.nil_append, List.cons.injEq] at heq
      obtain ⟨rfl, rfl⟩ := heq
      rcases h.1 with h1 | h1
      · rw [hq] at h1; cases h1
      · exact h1
    | cons b pre1 =>
      simp only [List.cons_append, List.cons.injEq] at heq
      obtain ⟨rfl, rfl⟩ := heq
      exact ih h.2 pre1 ev post rfl hq

/-! ## The verification branch on a local network -/

/-- C1: on a network named exactly `hardhat` or `localhost`, whatever the
external calls do, the trace of the run contains no invocation of `hre.run`
(so none of `verify:verify`) and no invocation of `deployTransaction.wait`. -/
theorem verification_skipped_on_local (hre : Hre)
    (h : hre.network.name = "hardhat" ∨ hre.network.name = "localhost") :
    ∀ ev ∈ (script hre).trace, ev.invokes .run = false ∧ ev.invokes .wait = false := by
  have hloc := isPublicNetwork_local _ h
  cases script_path hre <;> rename_i hrun <;> rw [hrun] <;>
    simp_all [tAddress, tBalance, tFactory, tDeploy, tDeployed, Event.invokes, Step.kind]

/-- The in-process network `hreLocal` is named `hardhat`; its run never
starts the wait or the verification. -/
theorem verification_skipped_on_local_witness :
    (hreLocal.network.name = "hardhat" ∨ hreLocal.network.name = "localhost") ∧
    ∀ ev ∈ (script hreLocal).trace, ev.invokes .run = false ∧ ev.invokes .wait = false :=
  ⟨Or.inl rfl, verification_skipped_on_local hreLocal (Or.inl rfl)⟩

/-! ## A throwing verification is swallowed -/

/-- C2: on a network named neither `hardhat` nor `localhost`, in a run in
which the 5-confirmation wait returned (so every earlier step succeeded) and
`hre.run("verify:verify", ...)` threw `e`, the promise of `main` resolves,
the exit status is 0, the line `Verification error:` followed by `e` is
logged, and no line `Contract verified on Etherscan!` is logged. -/
theorem verification_error_swallowed (hre : Hre) (c : Contract) (args : VerifyArgs)
    (e : JsError)
    (_hnet1 : hre.network.name ≠ "hardhat") (_hnet2 : hre.network.name ≠ "localhost")
    (hwait : Event.returned (Step.wait c 5) ∈ (script hre).trace)
    (hthrow : Event.threw (Step.run "verify:verify" args) e ∈ (script hre).trace) :
    (script hre).result = .ok () ∧ (script hre).exitCode = 0 ∧
    Event.log [.str "Verification error:", .err e] ∈ (script hre).trace ∧
    ∀ ev ∈ (script hre).trace, ev.logsLabel "Contract verified on Etherscan!" = false := by
  cases script_path hre <;> rename_i hrun <;> rw [hrun] at hwait hthrow ⊢ <;>
    simp_all [tAddress, tBalance, tFactory, tDeploy, tDeployed, tWait, Event.logsLabel]

/-- The run of `hreVerifyThrows`, on a network named `Hardhat`, swallows the
verification error. -/
theorem verification_error_swallowed_witness :
    hreVerifyThrows.network.name ≠ "hardhat" ∧ hreVerifyThrows.network.name ≠ "localhost" ∧
    (script hreVerifyThrows).result = .ok () ∧ (script hreVerifyThrows).exitCode = 0 ∧
    Event.log [.str "Verification error:", .err boom] ∈ (script hreVerifyThrows).trace ∧
    ∀ ev ∈ (script hreVerifyThrows).trace,
      ev.logsLabel "Contract verified on Etherscan!" = false :=
  ⟨by decide, by decide,
   verification_error_swallowed hreVerifyThrows contract0 (verifyArgs contract0) boom
    (by decide) (by decide)
    (by simp [script, main, bind_apply, Script.bind, call, deref, consoleLog, emit, tryCatch,
          hreVerifyThrows, ethers0, signer0, factory0, contract0, isPublicNetwork])
    (by simp [script, main, bind_apply, Script.bind, call, deref, consoleLog, emit, tryCatch,
          hreVerifyThrows, ethers0, signer0, factory0, contract0, isPublicNetwork, verifyArgs])⟩

/-! ## Errors outside the verification step -/

/-- C3: in a run in which `getSigners`, `getContractFactory`, `deploy`,
`contract.deployed()` or `deployTransaction.wait(5)` threw `e`, the promise
of `main` rejects with `e` (the error is not recovered inside `main`), the
top-level catch writes `e` with `console.error` as the last action of the
run, and the exit status is 1, hence not 0. -/
theorem unrecovered_error_exits_one (hre : Hre) (s : Step) (e : JsError)
    (hkind : s.kind ∈ [Kind.getSigners, .getContractFactory, .deploy, .deployed, .wait])
    (hthrow : Event.threw s e ∈ (script hre).trace) :
    (script hre).result = .error e ∧
    Event.error [.err e] ∈ (script hre).trace ∧
    (script hre).trace.getLast? = some (Event.error [.err e]) ∧
    (script hre).exitCode = 1 ∧ (script hre).exitCode ≠ 0 := by
  cases script_path hre <;> rename_i hrun <;> rw [hrun] at hthrow ⊢ <;>
    simp [tAddress, tBalance, tFactory, tDeploy, tDeployed, tWait] at hthrow ⊢ <;>
    (obtain ⟨rfl, rfl⟩ := hthrow
     first
       | (simp [Step.kind] at hkind; done)
       | simp)

/-- The run of `hreWaitThrows`: the confirmation wait throws and the exit
status is 1. -/
theorem unrecovered_error_exits_one_witness :
    Event.threw (Step.wait contractUnconfirmed 5) boom ∈ (script hreWaitThrows).trace ∧
    (script hreWaitThrows).result = .error boom ∧
    Event.error [.err boom] ∈ (script hreWaitThrows).trace ∧
    (script hreWaitThrows).trace.getLast? = some (Event.error [.err boom]) ∧
    (script hreWaitThrows).exitCode = 1 ∧ (script hreWaitThrows).exitCode ≠ 0 :=
  ⟨by simp [script, main, bind_apply, Script.bind, call, deref, consoleLog, emit, tryCatch,
        hreWaitThrows, ethers0, signer0, factoryUnconfirmed, contractUnconfirmed,
        isPublicNetwork],
   unrecovered_error_exits_one hreWaitThrows (Step.wait contractUnconfirmed 5) boom
    (by simp [Step.kind])
    (by simp [script, main, bind_apply, Script.bind, call, deref, consoleLog, emit, tryCatch,
          hreWaitThrows, ethers0, signer0, factoryUnconfirmed, contractUnconfirmed,
          isPublicNetwork])⟩

/-! ## The exit status -/

/-- C4, as stated, fails on the code in both directions.  In the run of
`hreVerifyThrows` the verification call throws and the exit status is 0, not
1; in the run of `hreNoSigner` no external call throws (the only throw is the
read of `deployer.address` on `undefined`) and the exit status is 1, not 0. -/
theorem exit_status_counterexample :
    (Event.threw (Step.run "verify:verify" (verifyArgs contract0)) boom
        ∈ (script hreVerifyThrows).trace ∧
      (script hreVerifyThrows).exitCode = 0 ∧ (script hreVerifyThrows).exitCode ≠ 1) ∧
    ((∀ s e, Event.threw s e ∈ (script hreNoSigner).trace → s = Step.readAddress) ∧
      (script hreNoSigner).exitCode = 1 ∧ (script hreNoSigner).exitCode ≠ 0) := by
  refine ⟨⟨?_, ?_, ?_⟩, ?_, ?_, ?_⟩ <;>
    simp [script, main, bind_apply, Script.bind, call, deref, consoleLog, emit, tryCatch,
      hreVerifyThrows, hreNoSigner, ethers0, signer0, factory0, contract0, isPublicNetwork,
      verifyArgs]

/-- C4, amended: the exit status is 0 exactly when no step of `main` other
than the verification call throws, and 1 exactly when some step other than
the verification call throws (signer acquisition, the read of
`deployer.address`, the balance query, factory resolution, deploy, the mining
wait or the confirmation wait); it is never anything else. -/
theorem exit_status_iff (hre : Hre) :
    ((script hre).exitCode = 0 ↔
      ∀ s e, Event.threw s e ∈ (script hre).trace → s.kind = Kind.run) ∧
    ((script hre).exitCode = 1 ↔
      ∃ s e, Event.threw s e ∈ (script hre).trace ∧ s.kind ≠ Kind.run) ∧
    ((script hre).exitCode = 0 ∨ (script hre).exitCode = 1) := by
  cases script_path hre <;> rename_i hrun <;> rw [hrun] <;>
    simp [tAddress, tBalance, tFactory, tDeploy, tDeployed, tWait, Step.kind]

/-! ## The deployed address -/

/-- C5: in a run in which `deploy` returned (called on `f` with `args`) and
`contract.deployed()` returned for `c`, the instance `c` is the one that
`deploy` call returned, the line `NFTMarketplace deployed to:` is logged with
exactly `c.address` and with nothing else, and every such line comes
strictly after a return of `contract.deployed()`, which is that of `c`. -/
theorem deployed_address_logged (hre : Hre) (f : Factory) (args : List String) (c : Contract)
    (hdeploy : Event.returned (Step.deploy f args) ∈ (script hre).trace)
    (hmined : Event.returned (Step.deployed c) ∈ (script hre).trace) :
    f.deploy args = .ok c ∧
    Event.log [.str "NFTMarketplace deployed to:", .str c.address] ∈ (script hre).trace ∧
    (∀ vals, Event.log (.str "NFTMarketplace deployed to:" :: vals) ∈ (script hre).trace →
      vals = [.str c.address]) ∧
    Before (Event.returns .deployed) (Event.logsLabel "NFTMarketplace deployed to:")
      (script hre).trace ∧
    (∀ c1, Event.returned (Step.deployed c1) ∈ (script hre).trace → c1 = c) := by
  cases script_path hre <;> rename_i hrun <;> rw [hrun] at hdeploy hmined ⊢ <;>
    simp [tAddress, tBalance, tFactory, tDeploy, tDeployed, tWait] at hdeploy hmined <;>
    (obtain ⟨rfl, rfl⟩ := hdeploy
     subst hmined
     refine ⟨by assumption, ?_, ?_, ?_, ?_⟩
     · simp [tAddress, tBalance, tFactory, tDeploy, tDeployed, tWait]
     · simp [tAddress, tBalance, tFactory, tDeploy, tDeployed, tWait]
     · apply before_of_beforeB
       simp [beforeB, tAddress, tBalance, tFactory, tDeploy, tDeployed, tWait,
         Event.returns, Event.logsLabel, Step.kind]
     · simp [tAddress, tBalance, tFactory, tDeploy, tDeployed, tWait])

/-- The run of `hreLocal` logs the address of `contract0`. -/
theorem deployed_address_logged_witness :
    Event.returned (Step.deploy factory0 []) ∈ (script hreLocal).trace ∧
    Event.returned (Step.deployed contract0) ∈ (script hreLocal).trace ∧
    Event.log [.str "NFTMarketplace deployed to:", .str "0xC0"] ∈ (script hreLocal).trace :=
  ⟨by simp [script, main, bind_apply, pure_apply, Script.bind, call, deref, consoleLog, emit,
        hreLocal, ethers0, signer0, factory0, contract0, isPublicNetwork],
   by simp [script, main, bind_apply, pure_apply, Script.bind, call, deref, consoleLog, emit,
        hreLocal, ethers0, signer0, factory0, contract0, isPublicNetwork],
   (deployed_address_logged hreLocal factory0 [] contract0
    (by simp [script, main, bind_apply, pure_apply, Script.bind, call, deref, consoleLog, emit,
          hreLocal, ethers0, signer0, factory0, contract0, isPublicNetwork])
    (by simp [script, main, bind_apply, pure_apply, Script.bind, call, deref, consoleLog, emit,
          hreLocal, ethers0, signer0, factory0, contract0, isPublicNetwork])).2.1⟩

/-! ## A local deployment -/

/-- C6: on a network named `hardhat` or `localhost`, when `getSigners`
returns at least one signer and `getBalance` of the first one, the resolution
of the factory `f` for the name `NFTMarketplace`, `f.deploy()` and
`contract.deployed()` all succeed, the run invokes `deploy` exactly once, on
`f` with no argument, and the exit status is 0. -/
theorem local_run_deploys_once (hre : Hre) (d : Signer) (others : List Signer) (b : Nat)
    (f : Factory) (c : Contract)
    (hnet : hre.network.name = "hardhat" ∨ hre.network.name = "localhost")
    (hs : hre.ethers.getSigners = .ok (d :: others))
    (hb : d.getBalance = .ok b)
    (hf : hre.ethers.getContractFactory "NFTMarketplace" = .ok f)
    (hdep : f.deploy [] = .ok c)
    (hm : c.deployed = .ok ()) :
    (script hre).trace.filter (Event.invokes .deploy) = [Event.invoke (Step.deploy f [])] ∧
    (script hre).exitCode = 0 := by
  have hloc := isPublicNetwork_local _ hnet
  cases script_path hre <;> rename_i hrun <;> rw [hrun] <;>
    simp_all [tAddress, tBalance, tFactory, tDeploy, tDeployed, Event.invokes, Step.kind]

/-- The run of `hreLocal` deploys once on `factory0` and exits 0. -/
theorem local_run_deploys_once_witness :
    (script hreLocal).trace.filter (Event.invokes .deploy)
      = [Event.invoke (Step.deploy factory0 [])] ∧
    (script hreLocal).exitCode = 0 :=
  local_run_deploys_once hreLocal signer0 [] 5 factory0 contract0 (Or.inl rfl) rfl rfl rfl rfl rfl

/-! ## The order of the steps -/

/-- C7: in every run the steps happen in strict sequence.  Every invocation
of `getContractFactory` has an invocation, and a return, of `getSigners`
strictly before it; likewise `deploy` after `getContractFactory` and
`contract.deployed()` after `deploy`.  Every invocation of `hre.run` (always
of the task `verify:verify`) has a normal return of `deployTransaction.wait`
strictly before it, every return of that wait has its invocation before it,
every invocation of that wait (always with argument 5) has a normal return of
`contract.deployed()` strictly before it. -/
theorem steps_in_sequence (hre : Hre) :
    (Before (Event.invokes .getSigners) (Event.invokes .getContractFactory) (script hre).trace ∧
     Before (Event.invokes .getContractFactory) (Event.invokes .deploy) (script hre).trace ∧
     Before (Event.invokes .deploy) (Event.invokes .deployed) (script hre).trace) ∧
    (Before (Event.returns .getSigners) (Event.invokes .getContractFactory) (script hre).trace ∧
     Before (Event.returns .getContractFactory) (Event.invokes .deploy) (script hre).trace ∧
     Before (Event.returns .deploy) (Event.invokes .deployed) (script hre).trace) ∧
    (Before (Event.returns .wait) (Event.invokes .run) (script hre).trace ∧
     Before (Event.invokes .wait) (Event.returns .wait) (script hre).trace ∧
     Before (Event.returns .deployed) (Event.invokes .wait) (script hre).trace) ∧
    (∀ c n, Event.invoke (Step.wait c n) ∈ (script hre).trace → n = 5) ∧
    (∀ task args, Event.invoke (Step.run task args) ∈ (script hre).trace →
      task = "verify:verify") := by
  cases script_path hre <;> rename_i hrun <;> rw [hrun] <;>
    refine ⟨⟨?_, ?_, ?_⟩, ⟨?_, ?_, ?_⟩, ⟨?_, ?_, ?_⟩, ?_, ?_⟩ <;>
    first
      | (apply before_of_beforeB
         simp [beforeB, tAddress, tBalance, tFactory, tDeploy, tDeployed, tWait,
           Event.invokes, Event.returns, Step.kind])
      | simp [tAddress, tBalance, tFactory, tDeploy, tDeployed, tWait]

/-! ## What is verified -/

/-- C8: in a run in which `hre.run(task, args)` is invoked, the task is
`verify:verify`, `args.constructorArguments` is empty and is the argument
list of every `deploy` invocation of the run, `args.address` is the address
of the contract instance that the `deploy` call of the run returned, and the
line `NFTMarketplace deployed to:` is logged with that same address and with
no other. -/
theorem verification_arguments (hre : Hre) (task : String) (args : VerifyArgs)
    (hinv : Event.invoke (Step.run task args) ∈ (script hre).trace) :
    task = "verify:verify" ∧ args.constructorArguments = [] ∧
    (∃ f c, Event.returned (Step.deploy f args.constructorArguments) ∈ (script hre).trace ∧
      f.deploy args.constructorArguments = .ok c ∧ args.address = c.address) ∧
    (∀ f dargs, Event.invoke (Step.deploy f dargs) ∈ (script hre).trace →
      dargs = args.constructorArguments) ∧
    Event.log [.str "NFTMarketplace deployed to:", .str args.address] ∈ (script hre).trace ∧
    (∀ vals, Event.log (.str "NFTMarketplace deployed to:" :: vals) ∈ (script hre).trace →
      vals = [.str args.address]) := by
  cases script_path hre <;> rename_i hrun <;> rw [hrun] at hinv ⊢ <;>
    simp [tAddress, tBalance, tFactory, tDeploy, tDeployed, tWait] at hinv <;>
    (obtain ⟨rfl, rfl⟩ := hinv
     simp_all [tAddress, tBalance, tFactory, tDeploy, tDeployed, tWait, verifyArgs])

/-- The run of `hreSepolia` verifies the address it logged. -/
theorem verification_arguments_witness :
    Event.invoke (Step.run "verify:verify" (verifyArgs contract0)) ∈ (script hreSepolia).trace ∧
    Event.log [.str "NFTMarketplace deployed to:", .str (verifyArgs contract0).address]
      ∈ (script hreSepolia).trace :=
  ⟨by simp [script, main, bind_apply, Script.bind, call, deref, consoleLog, emit, tryCatch,
        hreSepolia, ethers0, signer0, factory0, contract0, isPublicNetwork, verifyArgs],
   (verification_arguments hreSepolia "verify:verify" (verifyArgs contract0)
    (by simp [script, main, bind_apply, Script.bind, call, deref, consoleLog, emit, tryCatch,
          hreSepolia, ethers0, signer0, factory0, contract0, isPublicNetwork,
          verifyArgs])).2.2.2.2.1⟩

/-! ## The network test -/

/-- C9: the test of line 23 compares the network name exactly.  On a network
whose name is neither `hardhat` nor `localhost`, in a run in which
`contract.deployed()` returned for `c`, `deployTransaction.wait` is invoked
exactly once, on `c` with argument 5, and if that wait returned, `hre.run` is
invoked exactly once, for `verify:verify` with the address of `c` and no
constructor argument, whether it then returns or throws.  In a run in which
no step other than the verification call throws, `hre.run` is invoked if and
only if the name is neither `hardhat` nor `localhost`.  The names `Hardhat`,
`LOCALHOST`, `hardhat-fork` and the empty name pass the test of line 23. -/
theorem public_network_verifies_once (hre : Hre) :
    (∀ c, hre.network.name ≠ "hardhat" → hre.network.name ≠ "localhost" →
      Event.returned (Step.deployed c) ∈ (script hre).trace →
      (script hre).trace.filter (Event.invokes .wait) = [Event.invoke (Step.wait c 5)] ∧
      (Event.returned (Step.wait c 5) ∈ (script hre).trace →
        (script hre).trace.filter (Event.invokes .run)
          = [Event.invoke (Step.run "verify:verify" (verifyArgs c))])) ∧
    ((∀ s e, Event.threw s e ∈ (script hre).trace → s.kind = Kind.run) →
      ((∃ task args, Event.invoke (Step.run task args) ∈ (script hre).trace) ↔
        (hre.network.name ≠ "hardhat" ∧ hre.network.name ≠ "localhost"))) ∧
    (isPublicNetwork "Hardhat" = true ∧ isPublicNetwork "LOCALHOST" = true ∧
      isPublicNetwork "hardhat-fork" = true ∧ isPublicNetwork "" = true) := by
  refine ⟨?_, ?_, by decide⟩
  · intro c hnet1 hnet2 hmined
    have hpub := (isPublicNetwork_iff hre.network.name).2 ⟨hnet1, hnet2⟩
    cases script_path hre <;> rename_i hrun <;> rw [hrun] at hmined ⊢ <;>
      simp [tAddress, tBalance, tFactory, tDeploy, tDeployed, tWait] at hmined <;>
      (subst hmined
       simp_all [tAddress, tBalance, tFactory, tDeploy, tDeployed, tWait, Event.invokes,
         Step.kind])
  · intro hok
    rw [← isPublicNetwork_iff]
    cases script_path hre <;> rename_i hrun <;> rw [hrun] at hok ⊢ <;>
      simp_all [tAddress, tBalance, tFactory, tDeploy, tDeployed, tWait, Step.kind]

/-- The run of `hreVerifyThrows`: the name `Hardhat` is not a local name,
and the verification is started exactly once although it throws. -/
theorem public_network_verifies_once_witness :
    hreVerifyThrows.network.name ≠ "hardhat" ∧ hreVerifyThrows.network.name ≠ "localhost" ∧
    Event.returned (Step.deployed contract0) ∈ (script hreVerifyThrows).trace ∧
    Event.returned (Step.wait contract0 5) ∈ (script hreVerifyThrows).trace ∧
    (script hreVerifyThrows).trace.filter (Event.invokes .run)
      = [Event.invoke (Step.run "verify:verify" (verifyArgs contract0))] :=
  ⟨by decide, by decide,
   by simp [script, main, bind_apply, Script.bind, call, deref, consoleLog, emit, tryCatch,
        hreVerifyThrows, ethers0, signer0, factory0, contract0, isPublicNetwork],
   by simp [script, main, bind_apply, Script.bind, call, deref, consoleLog, emit, tryCatch,
        hreVerifyThrows, ethers0, signer0, factory0, contract0, isPublicNetwork],
   ((public_network_verifies_once hreVerifyThrows).1 contract0 (by decide) (by decide)
      (by simp [script, main, bind_apply, Script.bind, call, deref, consoleLog, emit, tryCatch,
            hreVerifyThrows, ethers0, signer0, factory0, contract0, isPublicNetwork])).2
      (by simp [script, main, bind_apply, Script.bind, call, deref, consoleLog, emit, tryCatch,
            hreVerifyThrows, ethers0, signer0, factory0, contract0, isPublicNetwork])⟩

/-! ## Fail-fast outside the verification step -/

/-- C10: in every run, after a throw of `getSigners`, of the read of
`deployer.address`, of `getBalance`, `getContractFactory`, `deploy`,
`contract.deployed()` or `deployTransaction.wait`, no step is started.  When
`getSigners` returns the empty list or the balance query throws, neither
`getContractFactory` nor `deploy` is invoked and the exit status is 1.  When
the confirmation wait throws, `hre.run` is not invoked. -/
theorem main_fail_fast (hre : Hre) :
    FailFast (script hre).trace ∧
    ((hre.ethers.getSigners = .ok [] ∨
        ∃ d e, Event.threw (Step.getBalance d) e ∈ (script hre).trace) →
      (∀ ev ∈ (script hre).trace,
        ev.invokes .getContractFactory = false ∧ ev.invokes .deploy = false) ∧
      (script hre).exitCode = 1) ∧
    ((∃ c n e, Event.threw (Step.wait c n) e ∈ (script hre).trace) →
      ∀ ev ∈ (script hre).trace, ev.invokes .run = false) := by
  refine ⟨?_, ?_, ?_⟩
  · apply failFast_of_failFastB
    cases script_path hre <;> rename_i hrun <;> rw [hrun] <;>
      simp [failFastB, tAddress, tBalance, tFactory, tDeploy, tDeployed, tWait,
        Event.isFatalThrow, Event.isInvoke, Step.kind]
  · intro h
    cases script_path hre <;> rename_i hrun <;> rw [hrun] at h ⊢ <;>
      simp_all [tAddress, tBalance, tFactory, tDeploy, tDeployed, tWait, Event.invokes,
        Step.kind]
  · intro h
    cases script_path hre <;> rename_i hrun <;> rw [hrun] at h ⊢ <;>
      simp_all [tAddress, tBalance, tFactory, tDeploy, tDeployed, tWait, Event.invokes,
        Step.kind]

/-- The runs of `hreNoSigner`, `hreBalanceThrows` and `hreWaitThrows` stop
at the first throw. -/
theorem main_fail_fast_witness :
    (hreNoSigner.ethers.getSigners = .ok [] ∧ (script hreNoSigner).exitCode = 1) ∧
    (Event.threw (Step.getBalance signerBad) boom ∈ (script hreBalanceThrows).trace ∧
      (script hreBalanceThrows).exitCode = 1) ∧
    (Event.threw (Step.wait contractUnconfirmed 5) boom ∈ (script hreWaitThrows).trace ∧
      ∀ ev ∈ (script hreWaitThrows).trace, ev.invokes .run = false) :=
  ⟨⟨rfl, ((main_fail_fast hreNoSigner).2.1 (Or.inl rfl)).2⟩,
   ⟨by simp [script, main, bind_apply, Script.bind, call, deref, consoleLog, emit,
        hreBalanceThrows, ethers0, signerBad],
    ((main_fail_fast hreBalanceThrows).2.1 (Or.inr ⟨signerBad, boom,
      by simp [script, main, bind_apply, Script.bind, call, deref, consoleLog, emit,
        hreBalanceThrows, ethers0, signerBad]⟩)).2⟩,
   ⟨by simp [script, main, bind_apply, Script.bind, call, deref, consoleLog, emit, tryCatch,
        hreWaitThrows, ethers0, signer0, factoryUnconfirmed, contractUnconfirmed,
        isPublicNetwork],
    (main_fail_fast hreWaitThrows).2.2 ⟨contractUnconfirmed, 5, boom,
      by simp [script, main, bind_apply, Script.bind, call, deref, consoleLog, emit, tryCatch,
        hreWaitThrows, ethers0, signer0, factoryUnconfirmed, contractUnconfirmed,
        isPublicNetwork]⟩⟩⟩

end Deploy
